import Mathlib

/-!
# csync command-line client (`client/csync_client.c`)

A shallow embedding of the option parser `parse_opt` and of the driver `main`
of the csync command-line client, and the properties of the order in which
`main` calls the synchronisation library.

* The option callback `parse_opt` is a function of the key, the argument and
  the `argp_state`; it returns `0`/`ARGP_ERR_UNKNOWN` with the new state, or
  ends the process through `argp_usage`.
* `main` is a function of the parsed `argument_s` and of the values returned
  by the library; it produces the list of library calls it made (each with the
  value it returned) and the exit status.
-/

namespace CsyncClient

/-! ## Keys -/

/-- `KEY_DUMMY = 129` of the anonymous enum. -/
def KEY_DUMMY : Int := 129
/-- `KEY_EXCLUDE_FILE`, the enumerator after `KEY_DUMMY`. -/
def KEY_EXCLUDE_FILE : Int := 130
/-- `KEY_REMOVE_JOURNAL`, the enumerator after `KEY_EXCLUDE_FILE`. -/
def KEY_REMOVE_JOURNAL : Int := 131
/-- The character constant `'j'`. -/
def KEY_j : Int := 106
/-- The character constant `'u'`. -/
def KEY_u : Int := 117
/-- The character constant `'r'`. -/
def KEY_r : Int := 114
/-- `ARGP_KEY_ARG` of `<argp.h>`: a positional argument. -/
def ARGP_KEY_ARG : Int := 0
/-- `ARGP_KEY_END` of `<argp.h>`: no argument is left. -/
def ARGP_KEY_END : Int := 0x1000001
/-- `ARGP_ERR_UNKNOWN` of `<argp.h>` (it is `E2BIG`). -/
def ARGP_ERR_UNKNOWN : Int := 7

/-! ## Data -/

/-- `struct argument_s`: what `main` and `parse_opt` share.  `args` is the
array `char *args[2]`; a pointer that was never written is `none`, and so is
the `NULL` of `exclude_file`. -/
structure argument_s where
  args : List (Option String)
  exclude_file : Option String
  journal_remove : Int
  journal_create : Int
  update : Int
  reconcile : Int
  propagate : Int
  deriving DecidableEq, Repr

/-- The two fields of `struct argp_state` that `parse_opt` reads: `input`
(the `argument_s` of `main`) and `arg_num`. -/
structure argp_state where
  input : argument_s
  arg_num : Nat
  deriving DecidableEq, Repr

/-- How one call of `parse_opt` ends: it returns an `error_t` with the state
it left behind, or `argp_usage` ends the process (the parser runs with flags
`0`, so `argp_usage` prints the usage and exits), or it writes outside the
two-element array `args`. -/
inductive ParseResult where
  | ret (code : Int) (state : argp_state)
  | usage
  | out_of_bounds
  deriving DecidableEq, Repr

/-- The store `arguments->args[i] = arg` into the array `char *args[2]`:
`none` when the index is outside the array. -/
def store_arg (args : List (Option String)) (i : Nat) (arg : String) :
    Option (List (Option String)) :=
  if i < 2 then some (args.set i (some arg)) else none

/-- `parse_opt`: one `switch` on the key. -/
def parse_opt (key : Int) (arg : String) (state : argp_state) : ParseResult :=
  let arguments := state.input
  if key = KEY_j then
    .ret 0 { state with input := { arguments with
      journal_create := 1, update := 1, reconcile := 0, propagate := 0 } }
  else if key = KEY_u then
    .ret 0 { state with input := { arguments with
      journal_create := 0, update := 1, reconcile := 0, propagate := 0 } }
  else if key = KEY_r then
    .ret 0 { state with input := { arguments with
      journal_create := 0, update := 1, reconcile := 1, propagate := 0 } }
  else if key = KEY_EXCLUDE_FILE then
    .ret 0 { state with input := { arguments with exclude_file := some arg } }
  else if key = KEY_REMOVE_JOURNAL then
    .ret 0 { state with input := { arguments with journal_remove := 1 } }
  else if key = ARGP_KEY_ARG then
    if state.arg_num ≥ 2 then
      .usage
    else
      match store_arg arguments.args state.arg_num arg with
      | some args => .ret 0 { state with input := { arguments with args := args } }
      | none => .out_of_bounds
  else if key = ARGP_KEY_END then
    if state.arg_num < 2 then
      .usage
    else
      .ret 0 state
  else
    .ret ARGP_ERR_UNKNOWN state

/-! ## The argp driver -/

/-- One item of the command line as argp hands it to `parse_opt`: an option of
the table `options` (by short or long name) or a positional argument.  A
command line is the list of its items in the order `parse_opt` receives them
(argp may hand over the positional arguments after the options; the order
among the options and among the positional arguments is the command
line's). -/
inductive Item where
  | journal
  | update
  | reconcile
  | exclude_file (file : String)
  | remove_journal
  | positional (arg : String)
  deriving DecidableEq, Repr

/-- The key of an item: the `.key` of its row of `options`, `ARGP_KEY_ARG`
for a positional argument. -/
def Item.key : Item → Int
  | .journal => KEY_j
  | .update => KEY_u
  | .reconcile => KEY_r
  | .exclude_file _ => KEY_EXCLUDE_FILE
  | .remove_journal => KEY_REMOVE_JOURNAL
  | .positional _ => ARGP_KEY_ARG

/-- The `arg` passed with an item (the empty string stands for the `NULL` of
an option that takes no argument; `parse_opt` does not read it there). -/
def Item.arg : Item → String
  | .exclude_file file => file
  | .positional arg => arg
  | _ => ""

/-- The loop of `argp_parse` (glibc) over the items, as its documentation
describes it: each item is handed to `parse_opt`; after a positional argument
that `parse_opt` accepted argp increments `arg_num`; after the last item
`parse_opt` is called with `ARGP_KEY_END`.  The other keys argp sends
(`ARGP_KEY_INIT`, `ARGP_KEY_NO_ARGS`, `ARGP_KEY_SUCCESS`, `ARGP_KEY_FINI`) reach
the `default:` branch, which leaves the state as it is, and are left out.
`none`: the process ended inside the parser. -/
def argp_parse_loop : List Item → argp_state → Option argp_state
  | [], state =>
    match parse_opt ARGP_KEY_END "" state with
    | .ret _ state1 => some state1
    | _ => none
  | item :: rest, state =>
    match parse_opt item.key item.arg state with
    | .ret code state1 =>
      if code = 0 then
        argp_parse_loop rest
          (if item.key = ARGP_KEY_ARG then { state1 with arg_num := state1.arg_num + 1 }
           else state1)
      else none
    | _ => none

/-- `argp_parse (&argp, argc, argv, 0, 0, &arguments)`: the loop from
`arg_num = 0` on the `arguments` of `main`. -/
def argp_parse (argv : List Item) (arguments : argument_s) : Option argument_s :=
  (argp_parse_loop argv { input := arguments, arg_num := 0 }).map argp_state.input

/-! ## The library and `main` -/

/-- The value each library function returns in a run (`main` calls each of
them at most once). -/
structure Lib where
  csync_create : Int
  csync_init : Int
  csync_add_exclude_list : Int
  csync_update : Int
  csync_reconcile : Int
  csync_propagate : Int
  csync_remove_journal : Int
  deriving DecidableEq, Repr

/-- A library call made by `main`, with its arguments other than the handle
and, where the function returns a status, the value `rc` it returned. -/
inductive Call where
  | csync_create (source destination : Option String) (rc : Int)
  | csync_set_module_auth_callback
  | csync_init (rc : Int)
  | csync_add_exclude_list (file : String) (rc : Int)
  | csync_update (rc : Int)
  | csync_reconcile (rc : Int)
  | csync_propagate (rc : Int)
  | csync_set_status (status : Int)
  | csync_remove_journal (rc : Int)
  | csync_destroy
  deriving DecidableEq, Repr

/-- A finished run of `main`: the library calls in the order they were made
and the exit status of the process. -/
structure Run where
  trace : List Call
  status : Int
  deriving DecidableEq, Repr

/-- The label `out:` of `main`: remove the journal when asked to, destroy the
handle, return `rc`. -/
def main_out (arguments : argument_s) (lib : Lib) (trace : List Call) (rc : Int) : Run :=
  let trace :=
    if arguments.journal_remove ≠ 0 then
      trace ++ [Call.csync_remove_journal lib.csync_remove_journal]
    else trace
  { trace := trace ++ [Call.csync_destroy], status := rc }

/-- `main` from `if (arguments.journal_create)` on. -/
def main_journal_create (arguments : argument_s) (lib : Lib) (trace : List Call) : Run :=
  let trace :=
    if arguments.journal_create ≠ 0 then trace ++ [Call.csync_set_status 0xFFFF] else trace
  main_out arguments lib trace 0

/-- `main` from `if (arguments.propagate)` on. -/
def main_propagate (arguments : argument_s) (lib : Lib) (trace : List Call) : Run :=
  if arguments.propagate ≠ 0 then
    let trace := trace ++ [Call.csync_propagate lib.csync_propagate]
    if lib.csync_propagate < 0 then main_out arguments lib trace 1
    else main_journal_create arguments lib trace
  else main_journal_create arguments lib trace

/-- `main` from `if (arguments.reconcile)` on. -/
def main_reconcile (arguments : argument_s) (lib : Lib) (trace : List Call) : Run :=
  if arguments.reconcile ≠ 0 then
    let trace := trace ++ [Call.csync_reconcile lib.csync_reconcile]
    if lib.csync_reconcile < 0 then main_out arguments lib trace 1
    else main_propagate arguments lib trace
  else main_propagate arguments lib trace

/-- `main` from `if (arguments.update)` on. -/
def main_update (arguments : argument_s) (lib : Lib) (trace : List Call) : Run :=
  if arguments.update ≠ 0 then
    let trace := trace ++ [Call.csync_update lib.csync_update]
    if lib.csync_update < 0 then main_out arguments lib trace 1
    else main_reconcile arguments lib trace
  else main_reconcile arguments lib trace

/-- `main` from `if (arguments.exclude_file != NULL)` on. -/
def main_exclude (arguments : argument_s) (lib : Lib) (trace : List Call) : Run :=
  match arguments.exclude_file with
  | some file =>
    let trace := trace ++ [Call.csync_add_exclude_list file lib.csync_add_exclude_list]
    if lib.csync_add_exclude_list < 0 then main_out arguments lib trace 1
    else main_update arguments lib trace
  | none => main_update arguments lib trace

/-- `main` after `argp_parse` has returned: `csync_create` (on failure
`exit(1)`), the authentication callback, `csync_init`, then the stages. -/
def main_run (arguments : argument_s) (lib : Lib) : Run :=
  let trace := [Call.csync_create (arguments.args.getD 0 none) (arguments.args.getD 1 none)
    lib.csync_create]
  if lib.csync_create < 0 then { trace := trace, status := 1 }
  else
    let trace := trace ++ [Call.csync_set_module_auth_callback]
    let trace := trace ++ [Call.csync_init lib.csync_init]
    if lib.csync_init < 0 then main_out arguments lib trace 1
    else main_exclude arguments lib trace

/-- The default values `main` gives `arguments` before parsing (the array
`args` is not initialised). -/
def default_arguments : argument_s :=
  { args := [none, none], exclude_file := none, journal_remove := 0, journal_create := 0,
    update := 1, reconcile := 1, propagate := 1 }

/-- `main`: the defaults, `argp_parse`, then the run on the parsed arguments.
`none`: the process ended inside `argp_parse`, before any library call. -/
def main (argv : List Item) (lib : Lib) : Option Run :=
  match argp_parse argv default_arguments with
  | some arguments => some (main_run arguments lib)
  | none => none

/-! ## Reading a command line -/

/-- The three options that select the stages. -/
inductive Mode where
  | j
  | u
  | r
  deriving DecidableEq, Repr

/-- The mode option an item is, if it is one. -/
def Item.mode : Item → Option Mode
  | .journal => some .j
  | .update => some .u
  | .reconcile => some .r
  | _ => none

/-- The last of `-j`, `-u`, `-r` on the command line. -/
def last_mode (argv : List Item) : Option Mode :=
  (argv.filterMap Item.mode).getLast?

/-- The flags `(journal_create, update, reconcile, propagate)` that go with
the last mode option, as the option table documents them. -/
def mode_flags : Option Mode → Int × Int × Int × Int
  | none => (0, 1, 1, 1)
  | some .u => (0, 1, 0, 0)
  | some .r => (0, 1, 1, 0)
  | some .j => (1, 1, 0, 0)

/-- The flags `(journal_create, update, reconcile, propagate)` of an
`argument_s`. -/
def argument_s.flags (a : argument_s) : Int × Int × Int × Int :=
  (a.journal_create, a.update, a.reconcile, a.propagate)

/-- The file an item names, if it is an `--exclude-file` option. -/
def Item.file : Item → Option String
  | .exclude_file file => some file
  | _ => none

/-- The files named by the `--exclude-file` options, in order. -/
def exclude_files (argv : List Item) : List String :=
  argv.filterMap Item.file

/-- The positional argument an item is, if it is one. -/
def Item.word : Item → Option String
  | .positional arg => some arg
  | _ => none

/-- The positional arguments of the command line, in order. -/
def positionals (argv : List Item) : List String :=
  argv.filterMap Item.word

/-- The array `args` after the positional arguments `words` were stored one
after the other from index `n` on. -/
def stored : List String → Nat → List (Option String) → List (Option String)
  | [], _, args => args
  | word :: words, n, args => stored words (n + 1) (args.set n (some word))

/-! ## Reading a trace -/

/-- The library functions `main` calls. -/
inductive Fn where
  | csync_create
  | csync_set_module_auth_callback
  | csync_init
  | csync_add_exclude_list
  | csync_update
  | csync_reconcile
  | csync_propagate
  | csync_set_status
  | csync_remove_journal
  | csync_destroy
  deriving DecidableEq, Repr

/-- The function a call is a call of. -/
def Call.fn : Call → Fn
  | .csync_create _ _ _ => .csync_create
  | .csync_set_module_auth_callback => .csync_set_module_auth_callback
  | .csync_init _ => .csync_init
  | .csync_add_exclude_list _ _ => .csync_add_exclude_list
  | .csync_update _ => .csync_update
  | .csync_reconcile _ => .csync_reconcile
  | .csync_propagate _ => .csync_propagate
  | .csync_set_status _ => .csync_set_status
  | .csync_remove_journal _ => .csync_remove_journal
  | .csync_destroy => .csync_destroy

/-- The value returned by a call of one of the six functions whose result
`main` tests: `csync_create`, `csync_init`, `csync_add_exclude_list`,
`csync_update`, `csync_reconcile`, `csync_propagate`. -/
def Call.tested : Call → Option Int
  | .csync_create _ _ rc => some rc
  | .csync_init rc => some rc
  | .csync_add_exclude_list _ rc => some rc
  | .csync_update rc => some rc
  | .csync_reconcile rc => some rc
  | .csync_propagate rc => some rc
  | _ => none

/-- A call of one of the six tested functions that returned a negative
value. -/
def Call.failed (c : Call) : Bool :=
  match c.tested with
  | some rc => decide (rc < 0)
  | none => false

/-- A call of one of the six tested functions that returned a value that is
not negative. -/
def Call.succeeded (c : Call) : Bool :=
  match c.tested with
  | some rc => !decide (rc < 0)
  | none => false

/-- Every call of the trace that satisfies `q` has a call that satisfies `p`
before it (`seen`: a call that satisfies `p` came before the trace). -/
def only_after (p q : Call → Bool) : Bool → List Call → Bool
  | _, [] => true
  | seen, c :: rest => (seen || !q c) && only_after p q (seen || p c) rest

/-- No call of the trace that satisfies `q` comes after a call that
satisfies `p`. -/
def none_after (p q : Call → Bool) : List Call → Bool
  | [] => true
  | c :: rest => (!p c || rest.all (fun d => !q d)) && none_after p q rest

/-- Every library call that returns a status returns a non-negative one. -/
def Lib.all_succeed (lib : Lib) : Prop :=
  0 ≤ lib.csync_create ∧ 0 ≤ lib.csync_init ∧ 0 ≤ lib.csync_add_exclude_list ∧
  0 ≤ lib.csync_update ∧ 0 ≤ lib.csync_reconcile ∧ 0 ≤ lib.csync_propagate ∧
  0 ≤ lib.csync_remove_journal

/-! ## Checks on a run

Each check is a decidable reading of one property of a finished run; the
theorems below prove that every run of `main` passes it and state what that
means for the calls of the trace. -/

/-- Reconciliation comes only after an update that succeeded, and propagation
only after a reconciliation that succeeded. -/
def order_check (run : Run) : Bool :=
  only_after (fun c => c.fn = .csync_update && c.succeeded) (fun c => c.fn = .csync_reconcile)
    false run.trace &&
  only_after (fun c => c.fn = .csync_reconcile && c.succeeded)
    (fun c => c.fn = .csync_propagate) false run.trace

/-- After a failed call there is no tested call and no `csync_set_status`
call, after a failed `csync_create` there is no call at all, and the status is
0 when no call failed and 1 otherwise. -/
def failure_check (run : Run) : Bool :=
  none_after Call.failed (fun d => d.tested.isSome || d.fn = .csync_set_status) run.trace &&
  none_after (fun c => c.fn = .csync_create && c.failed) (fun _ => true) run.trace &&
  (decide (run.status = 0) == run.trace.all (fun c => !c.failed)) &&
  (decide (run.status = 0) || decide (run.status = 1))

/-- The update is called, and the journal is removed only after it. -/
def update_check (run : Run) : Bool :=
  run.trace.any (fun c => c.fn = .csync_update) &&
  only_after (fun c => c.fn = .csync_update) (fun c => c.fn = .csync_remove_journal)
    false run.trace

/-- The status is set to `0xFFFF` only, exactly when `journal_create` is set
and no earlier call failed; a stage whose flag is 0 is not called. -/
def set_status_check (a : argument_s) (lib : Lib) (run : Run) : Bool :=
  run.trace.all (fun c =>
    match c with
    | .csync_set_status status => decide (status = 0xFFFF)
    | _ => true) &&
  (run.trace.any (fun c => c.fn = .csync_set_status) ==
    (decide (a.journal_create ≠ 0) && !decide (lib.csync_create < 0) &&
      !decide (lib.csync_init < 0) &&
      (a.exclude_file.isNone || !decide (lib.csync_add_exclude_list < 0)) &&
      (!decide (a.update ≠ 0) || !decide (lib.csync_update < 0)) &&
      (!decide (a.reconcile ≠ 0) || !decide (lib.csync_reconcile < 0)) &&
      (!decide (a.propagate ≠ 0) || !decide (lib.csync_propagate < 0)))) &&
  (decide (a.reconcile ≠ 0) || run.trace.all (fun c => !decide (c.fn = .csync_reconcile))) &&
  (decide (a.propagate ≠ 0) || run.trace.all (fun c => !decide (c.fn = .csync_propagate)))

/-! ## The parser -/

theorem parse_opt_default (key : Int) (arg : String) (state : argp_state)
    (hj : key ≠ KEY_j) (hu : key ≠ KEY_u) (hr : key ≠ KEY_r) (he : key ≠ KEY_EXCLUDE_FILE)
    (hm : key ≠ KEY_REMOVE_JOURNAL) (ha : key ≠ ARGP_KEY_ARG) (hz : key ≠ ARGP_KEY_END) :
    parse_opt key arg state = ParseResult.ret ARGP_ERR_UNKNOWN state := by
  simp [parse_opt, hj, hu, hr, he, hm, ha, hz]

theorem parse_opt_flags (key : Int) (arg : String) (state : argp_state) (code : Int)
    (state1 : argp_state) (h : parse_opt key arg state = ParseResult.ret code state1) :
    state1.input.flags =
      if key = KEY_j then (1, 1, 0, 0)
      else if key = KEY_u then (0, 1, 0, 0)
      else if key = KEY_r then (0, 1, 1, 0)
      else state.input.flags := by
  unfold parse_opt at h
  simp only [store_arg] at h
  split_ifs at h ⊢
  all_goals try simp only [ParseResult.ret.injEq, reduceCtorEq] at h
  all_goals try obtain ⟨-, rfl⟩ := h
  all_goals rfl

theorem argp_parse_loop_cons (item : Item) (rest : List Item) (state : argp_state) :
    argp_parse_loop (item :: rest) state =
      match item with
      | .journal => argp_parse_loop rest { state with input := { state.input with
          journal_create := 1, update := 1, reconcile := 0, propagate := 0 } }
      | .update => argp_parse_loop rest { state with input := { state.input with
          journal_create := 0, update := 1, reconcile := 0, propagate := 0 } }
      | .reconcile => argp_parse_loop rest { state with input := { state.input with
          journal_create := 0, update := 1, reconcile := 1, propagate := 0 } }
      | .exclude_file file => argp_parse_loop rest { state with input := { state.input with
          exclude_file := some file } }
      | .remove_journal => argp_parse_loop rest { state with input := { state.input with
          journal_remove := 1 } }
      | .positional arg =>
        if state.arg_num < 2 then
          argp_parse_loop rest
            { input := { state.input with args := state.input.args.set state.arg_num (some arg) },
              arg_num := state.arg_num + 1 }
        else none := by
  cases item <;>
    simp [argp_parse_loop, parse_opt, Item.key, Item.arg, KEY_j, KEY_u, KEY_r,
      KEY_EXCLUDE_FILE, KEY_REMOVE_JOURNAL, ARGP_KEY_ARG, store_arg]
  by_cases h : state.arg_num < 2
  · have h2 : ¬ 2 ≤ state.arg_num := by omega
    simp [h, h2]
  · have h2 : 2 ≤ state.arg_num := by omega
    simp [h, h2]

theorem argp_parse_loop_nil (state : argp_state) :
    argp_parse_loop [] state = if state.arg_num < 2 then none else some state := by
  simp [argp_parse_loop, parse_opt, KEY_j, KEY_u, KEY_r,
      KEY_EXCLUDE_FILE, KEY_REMOVE_JOURNAL, ARGP_KEY_ARG, ARGP_KEY_END]
  by_cases h : state.arg_num < 2 <;> simp [h]

theorem last_mode_cons (item : Item) (rest : List Item) :
    last_mode (item :: rest) = (last_mode rest).or item.mode := by
  unfold last_mode
  rw [List.filterMap_cons]
  cases h : item.mode
  · cases (List.filterMap Item.mode rest).getLast? <;> rfl
  · simp only [List.getLast?_cons]
    cases (List.filterMap Item.mode rest).getLast? <;> rfl

theorem argp_parse_loop_flags (argv : List Item) :
    ∀ state state1, argp_parse_loop argv state = some state1 →
      state1.input.flags =
        match last_mode argv with
        | none => state.input.flags
        | some m => mode_flags (some m) := by
  induction argv with
  | nil =>
    intro state state1 h
    rw [argp_parse_loop_nil] at h
    split at h <;> simp_all [last_mode]
  | cons item rest ih =>
    intro state state1 h
    rw [argp_parse_loop_cons] at h
    rw [last_mode_cons]
    cases item <;> simp only [] at h
    case positional arg =>
      split at h
      · have := ih _ _ h
        cases hm : last_mode rest <;> simp_all [Item.mode, argument_s.flags]
      · simp at h
    all_goals
      have := ih _ _ h
      cases hm : last_mode rest <;> simp_all [Item.mode, argument_s.flags, mode_flags]

theorem argp_parse_loop_journal_remove (argv : List Item) :
    ∀ state state1, argp_parse_loop argv state = some state1 →
      state1.input.journal_remove =
        if Item.remove_journal ∈ argv then 1 else state.input.journal_remove := by
  induction argv with
  | nil =>
    intro state state1 h
    rw [argp_parse_loop_nil] at h
    split at h <;> simp_all
  | cons item rest ih =>
    intro state state1 h
    rw [argp_parse_loop_cons] at h
    cases item <;> simp only [] at h
    case positional arg =>
      split at h
      · have := ih _ _ h
        simp_all
      · simp at h
    all_goals
      have := ih _ _ h
      by_cases hr : Item.remove_journal ∈ rest <;> simp_all

theorem argp_parse_loop_exclude_file (argv : List Item) :
    ∀ state state1, argp_parse_loop argv state = some state1 →
      state1.input.exclude_file =
        ((exclude_files argv).getLast?).or state.input.exclude_file := by
  induction argv with
  | nil =>
    intro state state1 h
    rw [argp_parse_loop_nil] at h
    split at h <;> simp_all [exclude_files]
  | cons item rest ih =>
    intro state state1 h
    rw [argp_parse_loop_cons] at h
    cases item <;> simp only [] at h
    case positional arg =>
      split at h
      · have := ih _ _ h
        simp_all [exclude_files, Item.file]
      · simp at h
    case exclude_file file =>
      have := ih _ _ h
      simp only [exclude_files, List.filterMap_cons, Item.file, List.getLast?_cons] at this ⊢
      rw [this]
      cases (List.filterMap Item.file rest).getLast? <;> rfl
    all_goals
      have := ih _ _ h
      simp_all [exclude_files, Item.file]

theorem argp_parse_loop_args (argv : List Item) :
    ∀ state state1, argp_parse_loop argv state = some state1 →
      state1.input.args = stored (positionals argv) state.arg_num state.input.args ∧
      state1.arg_num = state.arg_num + (positionals argv).length ∧
      2 ≤ state1.arg_num ∧
      (positionals argv ≠ [] → state1.arg_num ≤ 2) := by
  induction argv with
  | nil =>
    intro state state1 h
    rw [argp_parse_loop_nil] at h
    split at h
    · simp at h
    · simp at h
      subst h
      simp [positionals, stored]
      omega
  | cons item rest ih =>
    intro state state1 h
    rw [argp_parse_loop_cons] at h
    cases item <;> simp only [] at h
    case positional arg =>
      split at h
      · have := ih _ _ h
        simp only [positionals, List.filterMap_cons, Item.word, stored, List.length_cons] at this ⊢
        obtain ⟨h1, h2, h3, h4⟩ := this
        refine ⟨h1, by omega, h3, ?_⟩
        intro _
        by_cases hp : List.filterMap Item.word rest = []
        · simp [hp] at h2
          omega
        · exact h4 hp
      · simp at h
    all_goals
      have := ih _ _ h
      simpa [positionals, Item.word] using this

/-! ## Reading the checks -/

theorem only_after_sound (p q : Call → Bool) (trace : List Call) :
    ∀ seen, only_after p q seen trace = true →
      ∀ pre c post, trace = pre ++ c :: post → q c = true →
        seen = true ∨ ∃ d ∈ pre, p d = true := by
  induction trace with
  | nil => intro seen _ pre c post h; simp at h
  | cons x rest ih =>
    intro seen hs pre c post h hq
    simp only [only_after, Bool.and_eq_true, Bool.or_eq_true, Bool.not_eq_true'] at hs
    cases pre with
    | nil =>
      simp only [List.nil_append, List.cons.injEq] at h
      obtain ⟨rfl, -⟩ := h
      rcases hs.1 with h1 | h1
      · exact Or.inl h1
      · rw [hq] at h1; cases h1
    | cons y pre1 =>
      simp only [List.cons_append, List.cons.injEq] at h
      obtain ⟨rfl, h2⟩ := h
      rcases ih _ hs.2 pre1 c post h2 hq with h3 | ⟨d, hd, hpd⟩
      · simp only [Bool.or_eq_true] at h3
        rcases h3 with h3 | h3
        · exact Or.inl h3
        · exact Or.inr ⟨x, by simp, h3⟩
      · exact Or.inr ⟨d, by simp [hd], hpd⟩

theorem none_after_sound (p q : Call → Bool) (trace : List Call) :
    none_after p q trace = true →
      ∀ pre c post, trace = pre ++ c :: post → p c = true → ∀ d ∈ post, q d = false := by
  induction trace with
  | nil => intro _ pre c post h; simp at h
  | cons x rest ih =>
    intro hs pre c post h hp
    simp only [none_after, Bool.and_eq_true, Bool.or_eq_true, Bool.not_eq_true',
      List.all_eq_true] at hs
    cases pre with
    | nil =>
      simp only [List.nil_append, List.cons.injEq] at h
      obtain ⟨rfl, rfl⟩ := h
      rcases hs.1 with h1 | h1
      · rw [hp] at h1; cases h1
      · exact h1
    | cons y pre1 =>
      simp only [List.cons_append, List.cons.injEq] at h
      exact ih hs.2 pre1 c post h.2 hp

theorem argp_parse_spec (argv : List Item) (a : argument_s)
    (h : argp_parse argv default_arguments = some a) :
    a.flags = mode_flags (last_mode argv) ∧
    a.journal_remove = (if Item.remove_journal ∈ argv then 1 else 0) ∧
    a.exclude_file = (exclude_files argv).getLast? ∧
    ∃ s d, positionals argv = [s, d] ∧ a.args = [some s, some d] := by
  unfold argp_parse at h
  cases hl : argp_parse_loop argv { input := default_arguments, arg_num := 0 } with
  | none => simp [hl] at h
  | some state1 =>
    simp only [hl, Option.map_some', Option.some.injEq] at h
    subst h
    have hf := argp_parse_loop_flags argv _ _ hl
    have hj := argp_parse_loop_journal_remove argv _ _ hl
    have he := argp_parse_loop_exclude_file argv _ _ hl
    obtain ⟨ha, hn, h2, hle⟩ := argp_parse_loop_args argv _ _ hl
    refine ⟨?_, ?_, ?_, ?_⟩
    · rw [hf]
      cases last_mode argv <;> simp [default_arguments, argument_s.flags, mode_flags]
    · simpa [default_arguments] using hj
    · rw [he]
      cases (exclude_files argv).getLast? <;> simp [default_arguments]
    · have hlen : (positionals argv).length = 2 := by
        have hne : positionals argv ≠ [] := by
          intro h0
          simp [h0] at hn
          omega
        have := hle hne
        simp at hn
        omega
      match hp : positionals argv, hlen with
      | [s, d], _ =>
        refine ⟨s, d, rfl, ?_⟩
        rw [ha, hp]
        simp [stored, default_arguments]

theorem main_spec (argv : List Item) (lib : Lib) (run : Run) (h : main argv lib = some run) :
    ∃ a, argp_parse argv default_arguments = some a ∧ run = main_run a lib := by
  unfold main at h
  cases hp : argp_parse argv default_arguments with
  | none => simp [hp] at h
  | some a =>
    simp only [hp, Option.some.injEq] at h
    exact ⟨a, rfl, h.symm⟩

/-! ## The order of the stages -/

set_option maxHeartbeats 1000000 in
theorem main_run_order (a : argument_s) (lib : Lib) (hu : a.update ≠ 0)
    (hpr : a.propagate ≠ 0 → a.reconcile ≠ 0) :
    order_check (main_run a lib) = true := by
  simp only [main_run]
  split_ifs
  all_goals try simp only [main_exclude]
  all_goals try split
  all_goals try split_ifs
  all_goals try simp only [main_update]
  all_goals try split_ifs
  all_goals try simp only [main_reconcile]
  all_goals try split_ifs
  all_goals try simp only [main_propagate]
  all_goals try split_ifs
  all_goals try simp only [main_journal_create]
  all_goals try split_ifs
  all_goals try simp only [main_out]
  all_goals try split_ifs
  all_goals try simp only [List.cons_append, List.nil_append, List.append_assoc]
  all_goals try simp only [order_check, only_after, Call.succeeded, Call.tested,
    Call.fn, *, decide_True, decide_False]
  all_goals first
    | rfl
    | simp_all

/-- C1. Stage prerequisites: in every run of `main`, a call of
`csync_reconcile` comes only after a call of `csync_update` that returned a
non-negative value, and a call of `csync_propagate` only after a call of
`csync_reconcile` that returned a non-negative value; and the parsed flags are
each 0 or 1 and satisfy propagate = 1 → reconcile = 1 → update = 1. -/
theorem stage_prerequisites (argv : List Item) (lib : Lib) (run : Run)
    (h : main argv lib = some run) :
    (∀ pre rc post, run.trace = pre ++ Call.csync_reconcile rc :: post →
      ∃ rc0, 0 ≤ rc0 ∧ Call.csync_update rc0 ∈ pre) ∧
    (∀ pre rc post, run.trace = pre ++ Call.csync_propagate rc :: post →
      ∃ rc0, 0 ≤ rc0 ∧ Call.csync_reconcile rc0 ∈ pre) ∧
    (∃ a, argp_parse argv default_arguments = some a ∧
      (a.propagate = 1 → a.reconcile = 1) ∧ (a.reconcile = 1 → a.update = 1) ∧
      (a.propagate = 0 ∨ a.propagate = 1) ∧ (a.reconcile = 0 ∨ a.reconcile = 1) ∧
      (a.update = 0 ∨ a.update = 1)) := by
  obtain ⟨a, hp, rfl⟩ := main_spec argv lib run h
  obtain ⟨hf, -⟩ := argp_parse_spec argv a hp
  have hflags : a.update = 1 ∧ (a.propagate = 1 → a.reconcile = 1) ∧
      (a.propagate = 0 ∨ a.propagate = 1) ∧ (a.reconcile = 0 ∨ a.reconcile = 1) := by
    rcases hm : last_mode argv with _ | m
    · simp [hm, mode_flags, argument_s.flags] at hf
      simp [hf]
    · cases m <;> simp [hm, mode_flags, argument_s.flags] at hf <;> simp [hf]
  obtain ⟨hu, hpr, hp01, hr01⟩ := hflags
  have hord := main_run_order a lib (by simp [hu]) (by
    intro hp0
    rcases hp01 with h0 | h1
    · exact absurd h0 hp0
    · simp [hpr h1])
  simp only [order_check, Bool.and_eq_true] at hord
  refine ⟨?_, ?_, a, hp, hpr, fun _ => hu, hp01, hr01, Or.inr hu⟩
  · intro pre rc post ht
    rcases only_after_sound _ _ _ _ hord.1 pre _ post ht (by simp [Call.fn]) with h1 | ⟨d, hd, hpd⟩
    · cases h1
    · cases d <;> simp [Call.fn, Call.succeeded, Call.tested] at hpd
      exact ⟨_, hpd, hd⟩
  · intro pre rc post ht
    rcases only_after_sound _ _ _ _ hord.2 pre _ post ht (by simp [Call.fn]) with h1 | ⟨d, hd, hpd⟩
    · cases h1
    · cases d <;> simp [Call.fn, Call.succeeded, Call.tested] at hpd
      exact ⟨_, hpd, hd⟩

/-- C1, at `-r SRC DST` with `csync_update` succeeding: reconciliation is
called after the update that returned 0. -/
theorem stage_prerequisites_witness :
    main [Item.reconcile, Item.positional "src", Item.positional "dst"] ⟨0, 0, 0, 0, 0, 0, 0⟩ =
      some ⟨[Call.csync_create (some "src") (some "dst") 0,
        Call.csync_set_module_auth_callback, Call.csync_init 0, Call.csync_update 0,
        Call.csync_reconcile 0, Call.csync_destroy], 0⟩ ∧
    ∃ rc0, 0 ≤ rc0 ∧ Call.csync_update rc0 ∈
      [Call.csync_create (some "src") (some "dst") 0, Call.csync_set_module_auth_callback,
        Call.csync_init 0, Call.csync_update 0] :=
  ⟨rfl, (stage_prerequisites [Item.reconcile, Item.positional "src", Item.positional "dst"]
    ⟨0, 0, 0, 0, 0, 0, 0⟩
    ⟨[Call.csync_create (some "src") (some "dst") 0, Call.csync_set_module_auth_callback,
      Call.csync_init 0, Call.csync_update 0, Call.csync_reconcile 0, Call.csync_destroy], 0⟩
    rfl).1 _ 0 [Call.csync_destroy] rfl⟩

/-- C2. Default full pipeline: with exactly the two positional arguments and
every library call succeeding, `main` calls `csync_create` on them,
`csync_set_module_auth_callback`, `csync_init`, `csync_update`,
`csync_reconcile`, `csync_propagate` and `csync_destroy`, in this order and
nothing else, and returns 0. -/
theorem default_full_pipeline (source destination : String) (lib : Lib)
    (h : lib.all_succeed) :
    main [Item.positional source, Item.positional destination] lib =
      some
        { trace := [Call.csync_create (some source) (some destination) lib.csync_create,
            Call.csync_set_module_auth_callback,
            Call.csync_init lib.csync_init,
            Call.csync_update lib.csync_update,
            Call.csync_reconcile lib.csync_reconcile,
            Call.csync_propagate lib.csync_propagate,
            Call.csync_destroy],
          status := 0 } := by
  obtain ⟨h1, h2, -, h4, h5, h6, -⟩ := h
  have e : argp_parse [Item.positional source, Item.positional destination] default_arguments =
      some { default_arguments with args := [some source, some destination] } := rfl
  simp only [main, e]
  simp [main_run, main_exclude, main_update, main_reconcile, main_propagate,
    main_journal_create, main_out, default_arguments, not_lt.mpr h1, not_lt.mpr h2,
    not_lt.mpr h4, not_lt.mpr h5, not_lt.mpr h6]

/-- C2, at `csync src dst` with every call returning 0. -/
theorem default_full_pipeline_witness :
    Lib.all_succeed ⟨0, 0, 0, 0, 0, 0, 0⟩ ∧
    main [Item.positional "src", Item.positional "dst"] ⟨0, 0, 0, 0, 0, 0, 0⟩ =
      some
        { trace := [Call.csync_create (some "src") (some "dst") 0,
            Call.csync_set_module_auth_callback, Call.csync_init 0, Call.csync_update 0,
            Call.csync_reconcile 0, Call.csync_propagate 0, Call.csync_destroy],
          status := 0 } :=
  ⟨by simp [Lib.all_succeed],
    default_full_pipeline "src" "dst" ⟨0, 0, 0, 0, 0, 0, 0⟩ (by simp [Lib.all_succeed])⟩

/-! ## The end of a run -/

theorem main_run_create_failed (a : argument_s) (lib : Lib) (hc : lib.csync_create < 0) :
    main_run a lib =
      { trace := [Call.csync_create (a.args.getD 0 none) (a.args.getD 1 none) lib.csync_create],
        status := 1 } := by
  simp [main_run, hc]

theorem main_run_reaches_out (a : argument_s) (lib : Lib) (hc : 0 ≤ lib.csync_create) :
    ∃ trace rc, main_run a lib = main_out a lib trace rc ∧
      ∀ c ∈ trace, c.fn ≠ .csync_remove_journal ∧ c.fn ≠ .csync_destroy := by
  have hc1 : ¬ lib.csync_create < 0 := not_lt.mpr hc
  simp only [main_run, hc1, if_false]
  split_ifs
  all_goals try simp only [main_exclude]
  all_goals try split
  all_goals try split_ifs
  all_goals try simp only [main_update]
  all_goals try split_ifs
  all_goals try simp only [main_reconcile]
  all_goals try split_ifs
  all_goals try simp only [main_propagate]
  all_goals try split_ifs
  all_goals try simp only [main_journal_create]
  all_goals try split_ifs
  all_goals exact ⟨_, _, rfl, by simp [Call.fn]⟩

theorem main_out_trace (a : argument_s) (lib : Lib) (trace : List Call) (rc : Int) :
    (main_out a lib trace rc).trace =
      if a.journal_remove ≠ 0 then
        trace ++ [Call.csync_remove_journal lib.csync_remove_journal, Call.csync_destroy]
      else trace ++ [Call.csync_destroy] := by
  unfold main_out
  split_ifs <;> simp

/-- C3. Destroy after any failure: when `csync_create` succeeds,
`csync_destroy` is called exactly once and is the last call of the run,
whatever the other library calls return; when `csync_create` fails,
`csync_destroy` is not called. -/
theorem destroy_once_and_last (argv : List Item) (lib : Lib) (run : Run)
    (h : main argv lib = some run) :
    (0 ≤ lib.csync_create →
      run.trace.count Call.csync_destroy = 1 ∧ run.trace.getLast? = some Call.csync_destroy) ∧
    (lib.csync_create < 0 → Call.csync_destroy ∉ run.trace) := by
  obtain ⟨a, -, rfl⟩ := main_spec argv lib run h
  constructor
  · intro hc
    obtain ⟨trace, rc, he, hfree⟩ := main_run_reaches_out a lib hc
    have hd : List.count Call.csync_destroy trace = 0 :=
      List.count_eq_zero.mpr (fun hm => (hfree _ hm).2 rfl)
    rw [he, main_out_trace]
    split_ifs
    · simp [List.count_append, hd, List.getLast?_append]
    · simp [List.count_append, hd, List.getLast?_append]
  · intro hc
    rw [main_run_create_failed a lib hc]
    simp

/-- C3, at `-j SRC DST` with `csync_update` failing. -/
theorem destroy_once_and_last_witness :
    main [Item.journal, Item.positional "src", Item.positional "dst"] ⟨0, 0, 0, -1, 0, 0, 0⟩ =
      some ⟨[Call.csync_create (some "src") (some "dst") 0,
        Call.csync_set_module_auth_callback, Call.csync_init 0, Call.csync_update (-1),
        Call.csync_destroy], 1⟩ ∧
    List.count Call.csync_destroy [Call.csync_create (some "src") (some "dst") 0,
        Call.csync_set_module_auth_callback, Call.csync_init 0, Call.csync_update (-1),
        Call.csync_destroy] = 1 :=
  ⟨rfl, ((destroy_once_and_last
    [Item.journal, Item.positional "src", Item.positional "dst"] ⟨0, 0, 0, -1, 0, 0, 0⟩
    ⟨[Call.csync_create (some "src") (some "dst") 0,
        Call.csync_set_module_auth_callback, Call.csync_init 0, Call.csync_update (-1),
        Call.csync_destroy], 1⟩ rfl).1 (by decide)).1⟩

theorem main_run_status (a : argument_s) (lib : Lib) :
    (main_run a lib).status =
      if lib.csync_create < 0 ∨ lib.csync_init < 0 ∨
          (a.exclude_file ≠ none ∧ lib.csync_add_exclude_list < 0) ∨
          (a.update ≠ 0 ∧ lib.csync_update < 0) ∨
          (a.reconcile ≠ 0 ∧ lib.csync_reconcile < 0) ∨
          (a.propagate ≠ 0 ∧ lib.csync_propagate < 0) then 1
      else 0 := by
  simp only [main_run]
  split_ifs
  all_goals try simp only [main_exclude]
  all_goals try split
  all_goals try split_ifs
  all_goals try simp only [main_update]
  all_goals try split_ifs
  all_goals try simp only [main_reconcile]
  all_goals try split_ifs
  all_goals try simp only [main_propagate]
  all_goals try split_ifs
  all_goals try simp only [main_journal_create]
  all_goals try split_ifs
  all_goals try simp only [main_out]
  all_goals try simp_all
  all_goals omega

/-- C7. Journal removal comes after the synchronisation: when `csync_create`
succeeds and `--remove-journal` is on the command line, `csync_remove_journal`
is called exactly once, as the last call but one, directly before
`csync_destroy` and after every other call of the run, whatever the stages
returned; without `--remove-journal` it is not called; and the value it
returns does not change the exit status. -/
theorem journal_removal (argv : List Item) (lib : Lib) (run : Run)
    (h : main argv lib = some run) (hc : 0 ≤ lib.csync_create) :
    (Item.remove_journal ∈ argv →
      run.trace.countP (fun c => c.fn = .csync_remove_journal) = 1 ∧
      ∃ pre, run.trace =
          pre ++ [Call.csync_remove_journal lib.csync_remove_journal, Call.csync_destroy] ∧
        ∀ c ∈ pre, c.fn ≠ .csync_remove_journal ∧ c.fn ≠ .csync_destroy) ∧
    (Item.remove_journal ∉ argv → ∀ c ∈ run.trace, c.fn ≠ .csync_remove_journal) ∧
    (∀ rc, (main argv { lib with csync_remove_journal := rc }).map Run.status =
      some run.status) := by
  obtain ⟨a, hp, rfl⟩ := main_spec argv lib run h
  obtain ⟨-, hj, -⟩ := argp_parse_spec argv a hp
  obtain ⟨trace, rc, he, hfree⟩ := main_run_reaches_out a lib hc
  refine ⟨?_, ?_, ?_⟩
  · intro hm
    have hjr : a.journal_remove ≠ 0 := by simp [hj, hm]
    have h0 : List.countP (fun c => decide (c.fn = Fn.csync_remove_journal)) trace = 0 := by
      rw [List.countP_eq_zero]
      intro c hcm
      simpa using (hfree c hcm).1
    rw [he, main_out_trace, if_pos hjr]
    refine ⟨?_, trace, rfl, hfree⟩
    rw [List.countP_append, h0]
    rfl
  · intro hm c hcm
    have hjr : a.journal_remove = 0 := by simp [hj, hm]
    rw [he, main_out_trace] at hcm
    simp only [hjr, ne_eq, not_true_eq_false, if_false, List.mem_append,
      List.mem_singleton] at hcm
    rcases hcm with hcm | rfl
    · exact (hfree c hcm).1
    · simp [Call.fn]
  · intro rc1
    simp only [main, hp, Option.map_some', Option.some.injEq]
    rw [main_run_status, main_run_status]

/-- C7, at `-u --remove-journal SRC DST` with `csync_update` failing. -/
theorem journal_removal_witness :
    main [Item.update, Item.remove_journal, Item.positional "src", Item.positional "dst"]
      ⟨0, 0, 0, -1, 0, 0, 5⟩ =
      some ⟨[Call.csync_create (some "src") (some "dst") 0,
        Call.csync_set_module_auth_callback, Call.csync_init 0, Call.csync_update (-1),
        Call.csync_remove_journal 5, Call.csync_destroy], 1⟩ ∧
    List.countP (fun c => decide (c.fn = Fn.csync_remove_journal))
      [Call.csync_create (some "src") (some "dst") 0,
        Call.csync_set_module_auth_callback, Call.csync_init 0, Call.csync_update (-1),
        Call.csync_remove_journal 5, Call.csync_destroy] = 1 :=
  ⟨rfl, ((journal_removal
    [Item.update, Item.remove_journal, Item.positional "src", Item.positional "dst"]
    ⟨0, 0, 0, -1, 0, 0, 5⟩
    ⟨[Call.csync_create (some "src") (some "dst") 0,
        Call.csync_set_module_auth_callback, Call.csync_init 0, Call.csync_update (-1),
        Call.csync_remove_journal 5, Call.csync_destroy], 1⟩ rfl (by decide)).1
    (by decide)).1⟩

/-! ## Failures -/

set_option maxHeartbeats 1000000 in
theorem main_run_stops_at_failure (a : argument_s) (lib : Lib) :
    failure_check (main_run a lib) = true := by
  simp only [main_run]
  split_ifs
  all_goals try simp only [main_exclude]
  all_goals try split
  all_goals try split_ifs
  all_goals try simp only [main_update]
  all_goals try split_ifs
  all_goals try simp only [main_reconcile]
  all_goals try split_ifs
  all_goals try simp only [main_propagate]
  all_goals try split_ifs
  all_goals try simp only [main_journal_create]
  all_goals try split_ifs
  all_goals try simp only [main_out]
  all_goals try split_ifs
  all_goals try simp only [List.cons_append, List.nil_append, List.append_assoc]
  all_goals simp only [failure_check, none_after, List.all_cons, List.all_nil, Call.failed,
    Call.tested, Call.fn, *, decide_True, decide_False]
  all_goals rfl

/-- C9. Fail-fast and exit status: after a call of one of the six tested
functions that returned a negative value, the run makes no further call of
these six and no `csync_set_status` call, and the exit status is 1; after a
failed `csync_create` there is no further call at all; and the exit status,
which is 0 or 1, is 0 exactly when no tested call of the run returned a
negative value. -/
theorem fail_fast (argv : List Item) (lib : Lib) (run : Run)
    (h : main argv lib = some run) :
    (∀ pre c post, run.trace = pre ++ c :: post → c.failed = true →
      (∀ d ∈ post, d.tested = none ∧ d.fn ≠ .csync_set_status) ∧ run.status = 1 ∧
      (c.fn = .csync_create → post = [])) ∧
    (run.status = 0 ↔ ∀ c ∈ run.trace, c.failed = false) ∧
    (run.status = 0 ∨ run.status = 1) := by
  obtain ⟨a, -, rfl⟩ := main_spec argv lib run h
  have hchk := main_run_stops_at_failure a lib
  simp only [failure_check, Bool.and_eq_true, Bool.or_eq_true, decide_eq_true_eq,
    beq_iff_eq] at hchk
  obtain ⟨⟨⟨h1, h2⟩, h3b⟩, h4⟩ := hchk
  have h3 : (main_run a lib).status = 0 ↔ ∀ c ∈ (main_run a lib).trace, c.failed = false := by
    rw [← decide_eq_true_iff (p := (main_run a lib).status = 0), h3b, List.all_eq_true]
    simp
  refine ⟨?_, h3, h4⟩
  intro pre c post ht hf
  refine ⟨?_, ?_, ?_⟩
  · intro d hd
    have := none_after_sound _ _ _ h1 pre c post ht hf d hd
    simp only [Bool.or_eq_false_iff, decide_eq_false_iff_not] at this
    refine ⟨?_, this.2⟩
    cases hdt : d.tested <;> simp_all
  · rcases h4 with h0 | h1
    · have := h3.mp h0 c (by rw [ht]; simp)
      rw [hf] at this
      cases this
    · exact h1
  · intro hfn
    have := none_after_sound _ _ _ h2 pre c post ht (by simp [hfn, hf])
    cases post with
    | nil => rfl
    | cons d rest => simpa using this d (by simp)

/-- C9, at `SRC DST` with `csync_reconcile` failing: nothing but
`csync_destroy` follows, and the exit status is 1. -/
theorem fail_fast_witness :
    main [Item.positional "src", Item.positional "dst"] ⟨0, 0, 0, 0, -1, 0, 0⟩ =
      some ⟨[Call.csync_create (some "src") (some "dst") 0,
        Call.csync_set_module_auth_callback, Call.csync_init 0, Call.csync_update 0,
        Call.csync_reconcile (-1), Call.csync_destroy], 1⟩ ∧
    (∀ d ∈ [Call.csync_destroy], d.tested = none ∧ d.fn ≠ .csync_set_status) ∧
    (1 : Int) = 1 ∧ ((Call.csync_reconcile (-1)).fn = .csync_create → [Call.csync_destroy] = []) :=
  ⟨rfl, (fail_fast [Item.positional "src", Item.positional "dst"] ⟨0, 0, 0, 0, -1, 0, 0⟩
    ⟨[Call.csync_create (some "src") (some "dst") 0,
        Call.csync_set_module_auth_callback, Call.csync_init 0, Call.csync_update 0,
        Call.csync_reconcile (-1), Call.csync_destroy], 1⟩ rfl).1
    [Call.csync_create (some "src") (some "dst") 0,
        Call.csync_set_module_auth_callback, Call.csync_init 0, Call.csync_update 0]
    (Call.csync_reconcile (-1)) [Call.csync_destroy] rfl rfl⟩

/-! ## No reset mode -/

set_option maxHeartbeats 1000000 in
theorem main_run_update (a : argument_s) (lib : Lib) (hu : a.update ≠ 0)
    (hc : ¬ lib.csync_create < 0) (hi : ¬ lib.csync_init < 0)
    (he : ¬ lib.csync_add_exclude_list < 0) :
    update_check (main_run a lib) = true := by
  simp only [main_run]
  split_ifs
  all_goals try simp only [main_exclude]
  all_goals try split
  all_goals try split_ifs
  all_goals try simp only [main_update]
  all_goals try split_ifs
  all_goals try simp only [main_reconcile]
  all_goals try split_ifs
  all_goals try simp only [main_propagate]
  all_goals try split_ifs
  all_goals try simp only [main_journal_create]
  all_goals try split_ifs
  all_goals try simp only [main_out]
  all_goals try split_ifs
  all_goals try simp only [List.cons_append, List.nil_append, List.append_assoc]
  all_goals try simp only [update_check, only_after, List.any_cons, List.any_nil,
    Call.fn, *, decide_True, decide_False]
  all_goals rfl

theorem main_update_called (argv : List Item) (lib : Lib) (run : Run)
    (hs : lib.all_succeed) (h : main argv lib = some run) :
    (∃ rc, Call.csync_update rc ∈ run.trace) ∧
    ∀ pre rc post, run.trace = pre ++ Call.csync_remove_journal rc :: post →
      ∃ rc0, Call.csync_update rc0 ∈ pre := by
  obtain ⟨a, hp, rfl⟩ := main_spec argv lib run h
  obtain ⟨hf, -⟩ := argp_parse_spec argv a hp
  have hu : a.update = 1 := by
    rcases hm : last_mode argv with _ | m
    · simp [hm, mode_flags, argument_s.flags] at hf
      simp [hf]
    · cases m <;> simp [hm, mode_flags, argument_s.flags] at hf <;> simp [hf]
  obtain ⟨h1, h2, h3, -⟩ := hs
  have hchk := main_run_update a lib (by simp [hu]) (not_lt.mpr h1) (not_lt.mpr h2)
    (not_lt.mpr h3)
  simp only [update_check, Bool.and_eq_true, List.any_eq_true, decide_eq_true_eq] at hchk
  obtain ⟨⟨c, hc, hfn⟩, hafter⟩ := hchk
  constructor
  · cases c <;> simp [Call.fn] at hfn
    exact ⟨_, hc⟩
  · intro pre rc post ht
    rcases only_after_sound _ _ _ _ hafter pre _ post ht (by simp [Call.fn]) with h0 | ⟨d, hd, hpd⟩
    · cases h0
    · cases d <;> simp [Call.fn] at hpd
      exact ⟨_, hd⟩

/-- C4, as the claim states it, fails: there is no command line for which,
with every library call succeeding, `csync_remove_journal` is called in a run
without a `csync_update`, `csync_reconcile` or `csync_propagate` call. -/
theorem no_reset_mode :
    ¬ ∃ (argv : List Item) (lib : Lib) (run : Run),
      lib.all_succeed ∧ main argv lib = some run ∧
      (∃ rc, Call.csync_remove_journal rc ∈ run.trace) ∧
      ∀ c ∈ run.trace, c.fn ≠ .csync_update ∧ c.fn ≠ .csync_reconcile ∧
        c.fn ≠ .csync_propagate := by
  rintro ⟨argv, lib, run, hs, h, -, hno⟩
  obtain ⟨⟨rc, hrc⟩, -⟩ := main_update_called argv lib run hs h
  exact (hno _ hrc).1 rfl

/-- C4, amended. The journal is removed after the synchronisation, not
instead of it: for every command line the parser accepts, with every library
call succeeding, `csync_update` is called, and a call of
`csync_remove_journal` comes only after it. -/
theorem journal_removed_after_update (argv : List Item) (lib : Lib) (run : Run)
    (hs : lib.all_succeed) (h : main argv lib = some run) :
    (∃ rc, Call.csync_update rc ∈ run.trace) ∧
    ∀ pre rc post, run.trace = pre ++ Call.csync_remove_journal rc :: post →
      ∃ rc0, Call.csync_update rc0 ∈ pre :=
  main_update_called argv lib run hs h

/-- C4, amended, at `-u --remove-journal SRC DST`, the run nearest to a reset:
update detection is the only stage before the journal is removed. -/
theorem journal_removed_after_update_witness :
    Lib.all_succeed ⟨0, 0, 0, 0, 0, 0, 0⟩ ∧
    main [Item.update, Item.remove_journal, Item.positional "src", Item.positional "dst"]
      ⟨0, 0, 0, 0, 0, 0, 0⟩ =
      some ⟨[Call.csync_create (some "src") (some "dst") 0,
        Call.csync_set_module_auth_callback, Call.csync_init 0, Call.csync_update 0,
        Call.csync_remove_journal 0, Call.csync_destroy], 0⟩ ∧
    ∃ rc, Call.csync_update rc ∈ [Call.csync_create (some "src") (some "dst") 0,
        Call.csync_set_module_auth_callback, Call.csync_init 0, Call.csync_update 0,
        Call.csync_remove_journal 0, Call.csync_destroy] :=
  ⟨by simp [Lib.all_succeed], rfl,
    (journal_removed_after_update
      [Item.update, Item.remove_journal, Item.positional "src", Item.positional "dst"]
      ⟨0, 0, 0, 0, 0, 0, 0⟩
      ⟨[Call.csync_create (some "src") (some "dst") 0,
        Call.csync_set_module_auth_callback, Call.csync_init 0, Call.csync_update 0,
        Call.csync_remove_journal 0, Call.csync_destroy], 0⟩
      (by simp [Lib.all_succeed]) rfl).1⟩

/-! ## The diagnostic flag -/

set_option maxHeartbeats 1000000 in
theorem main_run_set_status (a : argument_s) (lib : Lib) :
    set_status_check a lib (main_run a lib) = true := by
  simp only [main_run]
  split_ifs
  all_goals try simp only [main_exclude]
  all_goals try split
  all_goals try split_ifs
  all_goals try simp only [main_update]
  all_goals try split_ifs
  all_goals try simp only [main_reconcile]
  all_goals try split_ifs
  all_goals try simp only [main_propagate]
  all_goals try split_ifs
  all_goals try simp only [main_journal_create]
  all_goals try split_ifs
  all_goals try simp only [main_out]
  all_goals try split_ifs
  all_goals try simp only [List.cons_append, List.nil_append, List.append_assoc]
  all_goals simp only [set_status_check, List.all_cons, List.all_nil, List.any_cons,
    List.any_nil, Call.fn, *, decide_True, decide_False, Option.isNone_some, Option.isNone_none]
  all_goals first
    | rfl
    | simp [*]

/-- C5. Diagnostic flag means no propagation: when `main` calls
`csync_set_status`, the argument is `0xFFFF` and the run has no
`csync_reconcile` and no `csync_propagate` call; and `csync_set_status` is
called exactly when the last mode option is `-j` and `csync_create`,
`csync_init`, `csync_add_exclude_list` (called when there is an
`--exclude-file`) and `csync_update` all succeeded. -/
theorem diagnostic_flag (argv : List Item) (lib : Lib) (run : Run)
    (h : main argv lib = some run) :
    (∀ status, Call.csync_set_status status ∈ run.trace →
      status = 0xFFFF ∧
      ∀ c ∈ run.trace, c.fn ≠ .csync_reconcile ∧ c.fn ≠ .csync_propagate) ∧
    ((∃ status, Call.csync_set_status status ∈ run.trace) ↔
      last_mode argv = some Mode.j ∧ 0 ≤ lib.csync_create ∧ 0 ≤ lib.csync_init ∧
      (exclude_files argv ≠ [] → 0 ≤ lib.csync_add_exclude_list) ∧
      0 ≤ lib.csync_update) := by
  obtain ⟨a, hp, rfl⟩ := main_spec argv lib run h
  obtain ⟨hf, -, he, -⟩ := argp_parse_spec argv a hp
  have hchk := main_run_set_status a lib
  simp only [set_status_check, Bool.and_eq_true, Bool.or_eq_true, List.all_eq_true,
    decide_eq_true_eq, Bool.not_eq_true', decide_eq_false_iff_not] at hchk
  obtain ⟨⟨⟨hval, hiff⟩, hrec⟩, hprop⟩ := hchk
  have hnone : a.exclude_file.isNone = true ↔ exclude_files argv = [] := by
    rw [he]
    cases hx : exclude_files argv with
    | nil => simp
    | cons x xs =>
      have : (x :: xs).getLast? ≠ none := by
        simp [List.getLast?_eq_none_iff]
      cases hg : (x :: xs).getLast? with
      | none => exact absurd hg this
      | some y => simp
  have hany : (∃ status, Call.csync_set_status status ∈ (main_run a lib).trace) ↔
      (main_run a lib).trace.any (fun c => decide (c.fn = Fn.csync_set_status)) = true := by
    simp only [List.any_eq_true, decide_eq_true_eq]
    constructor
    · rintro ⟨status, hs⟩
      exact ⟨_, hs, rfl⟩
    · rintro ⟨c, hc, hfn⟩
      cases c <;> simp [Call.fn] at hfn
      exact ⟨_, hc⟩
  have hflags : (last_mode argv = some Mode.j ∧ a.journal_create = 1 ∧ a.update = 1 ∧
      a.reconcile = 0 ∧ a.propagate = 0) ∨
      (last_mode argv ≠ some Mode.j ∧ a.journal_create = 0) := by
    rcases hm : last_mode argv with _ | m
    · simp [hm, mode_flags, argument_s.flags] at hf
      simp [hf]
    · cases m <;> simp [hm, mode_flags, argument_s.flags] at hf <;> simp [hf]
  constructor
  · intro status hs
    have h1 := hval _ hs
    simp only [decide_eq_true_eq] at h1
    refine ⟨h1, ?_⟩
    have hcalled := hany.mp ⟨status, hs⟩
    rw [hcalled] at hiff
    rcases hflags with ⟨-, -, -, hr0, hp0⟩ | ⟨-, hj0⟩
    · intro c hc
      constructor
      · rcases hrec with h2 | h2
        · exact absurd hr0 h2
        · simpa using h2 c hc
      · rcases hprop with h2 | h2
        · exact absurd hp0 h2
        · simpa using h2 c hc
    · simp [hj0] at hiff
  · rw [hany]
    rcases hflags with ⟨hm, hj1, hu1, hr0, hp0⟩ | ⟨hm, hj0⟩
    · rw [beq_iff_eq.mp hiff]
      simp only [hm, hj1, hu1, hr0, hp0, true_and]
      have : exclude_files argv ≠ [] ↔ a.exclude_file.isNone = false := by
        rw [ne_eq, ← hnone]
        cases a.exclude_file <;> simp
      rw [this]
      cases a.exclude_file.isNone <;> simp [and_assoc]
    · rw [beq_iff_eq.mp hiff]
      simp [hj0, hm]

/-- C5, at `-j SRC DST` with every call returning 0: the status is set to
`0xFFFF` and the run has no reconciliation and no propagation. -/
theorem diagnostic_flag_witness :
    main [Item.journal, Item.positional "src", Item.positional "dst"] ⟨0, 0, 0, 0, 0, 0, 0⟩ =
      some ⟨[Call.csync_create (some "src") (some "dst") 0,
        Call.csync_set_module_auth_callback, Call.csync_init 0, Call.csync_update 0,
        Call.csync_set_status 0xFFFF, Call.csync_destroy], 0⟩ ∧
    ((0xFFFF : Int) = 0xFFFF ∧
      ∀ c ∈ [Call.csync_create (some "src") (some "dst") 0,
        Call.csync_set_module_auth_callback, Call.csync_init 0, Call.csync_update 0,
        Call.csync_set_status 0xFFFF, Call.csync_destroy],
        c.fn ≠ .csync_reconcile ∧ c.fn ≠ .csync_propagate) :=
  ⟨rfl, (diagnostic_flag [Item.journal, Item.positional "src", Item.positional "dst"]
    ⟨0, 0, 0, 0, 0, 0, 0⟩
    ⟨[Call.csync_create (some "src") (some "dst") 0,
        Call.csync_set_module_auth_callback, Call.csync_init 0, Call.csync_update 0,
        Call.csync_set_status 0xFFFF, Call.csync_destroy], 0⟩ rfl).1 0xFFFF
    (by simp)⟩

/-! ## The mode options -/

/-- C6. Mode options select the stages, last one wins: a call of `parse_opt`
sets the flags `(journal_create, update, reconcile, propagate)` to (1,1,0,0)
for `-j`, (0,1,0,0) for `-u`, (0,1,1,0) for `-r` and leaves them as they are
for every other key, and `main` starts from (0,1,1,1); so the flags after
parsing depend only on the last of `-j`, `-u`, `-r` on the command line: none
gives (0,1,1,1), `-u` (0,1,0,0), `-r` (0,1,1,0), `-j` (1,1,0,0), whatever
`--exclude-file`, `--remove-journal` and positional arguments stand between
them; and with every library call
succeeding the stage calls of the run are, in order: update, reconcile,
propagate with no mode option; update alone for `-u`; update, reconcile for
`-r`; update, then `csync_set_status`, for `-j`. -/
theorem mode_last_wins (argv : List Item) (a : argument_s)
    (h : argp_parse argv default_arguments = some a) :
    (∀ key arg state code state1, parse_opt key arg state = ParseResult.ret code state1 →
      state1.input.flags =
        if key = KEY_j then (1, 1, 0, 0)
        else if key = KEY_u then (0, 1, 0, 0)
        else if key = KEY_r then (0, 1, 1, 0)
        else state.input.flags) ∧
    default_arguments.flags = (0, 1, 1, 1) ∧
    a.flags = mode_flags (last_mode argv) ∧
    ∀ lib : Lib, lib.all_succeed →
      (main_run a lib).trace.filter (fun c => c.fn = .csync_update || c.fn = .csync_reconcile ||
          c.fn = .csync_propagate || c.fn = .csync_set_status) =
        match last_mode argv with
        | none => [Call.csync_update lib.csync_update, Call.csync_reconcile lib.csync_reconcile,
            Call.csync_propagate lib.csync_propagate]
        | some .u => [Call.csync_update lib.csync_update]
        | some .r => [Call.csync_update lib.csync_update,
            Call.csync_reconcile lib.csync_reconcile]
        | some .j => [Call.csync_update lib.csync_update, Call.csync_set_status 0xFFFF] := by
  obtain ⟨hf, -⟩ := argp_parse_spec argv a h
  refine ⟨parse_opt_flags, rfl, hf, ?_⟩
  intro lib hs
  obtain ⟨h1, h2, h3, h4, h5, h6, -⟩ := hs
  obtain ⟨args, ef, jr, jc, u, r, p⟩ := a
  rcases hm : last_mode argv with _ | m
  · simp only [hm, mode_flags, argument_s.flags, Prod.mk.injEq] at hf
    obtain ⟨rfl, rfl, rfl, rfl⟩ := hf
    cases ef <;> by_cases hjr : jr = 0 <;>
      simp [main_run, main_exclude, main_update, main_reconcile, main_propagate,
        main_journal_create, main_out, not_lt.mpr h1, not_lt.mpr h2, not_lt.mpr h3,
        not_lt.mpr h4, not_lt.mpr h5, not_lt.mpr h6, hjr, Call.fn]
  · cases m <;> simp only [hm, mode_flags, argument_s.flags, Prod.mk.injEq] at hf <;>
      obtain ⟨rfl, rfl, rfl, rfl⟩ := hf <;>
      cases ef <;> by_cases hjr : jr = 0 <;>
      simp [main_run, main_exclude, main_update, main_reconcile, main_propagate,
        main_journal_create, main_out, not_lt.mpr h1, not_lt.mpr h2, not_lt.mpr h3,
        not_lt.mpr h4, not_lt.mpr h5, not_lt.mpr h6, hjr, Call.fn]

/-- C6, at `-j --exclude-file x -r SRC --remove-journal DST`: the last mode
option is `-r`. -/
theorem mode_last_wins_witness :
    argp_parse [Item.journal, Item.exclude_file "x", Item.reconcile, Item.positional "src",
      Item.remove_journal, Item.positional "dst"] default_arguments =
      some ⟨[some "src", some "dst"], some "x", 1, 0, 1, 1, 0⟩ ∧
    argument_s.flags ⟨[some "src", some "dst"], some "x", 1, 0, 1, 1, 0⟩ = (0, 1, 1, 0) :=
  ⟨rfl, (mode_last_wins [Item.journal, Item.exclude_file "x", Item.reconcile,
    Item.positional "src", Item.remove_journal, Item.positional "dst"]
    ⟨[some "src", some "dst"], some "x", 1, 0, 1, 1, 0⟩ rfl).2.2.1⟩

/-! ## The exclude file -/

theorem main_update_suffix (a : argument_s) (lib : Lib) (trace : List Call) :
    ∃ post, (main_update a lib trace).trace = trace ++ post ∧
      ∀ c ∈ post, c.fn ≠ .csync_add_exclude_list ∧ c.fn ≠ .csync_init := by
  simp only [main_update]
  split_ifs
  all_goals try simp only [main_reconcile]
  all_goals try split_ifs
  all_goals try simp only [main_propagate]
  all_goals try split_ifs
  all_goals try simp only [main_journal_create]
  all_goals try split_ifs
  all_goals try simp only [main_out]
  all_goals try split_ifs
  all_goals try simp only [List.append_assoc]
  all_goals exact ⟨_, rfl, by simp [Call.fn]⟩

theorem main_out_suffix (a : argument_s) (lib : Lib) (trace : List Call) (rc : Int) :
    ∃ post, (main_out a lib trace rc).trace = trace ++ post ∧
      ∀ c ∈ post, c.fn ≠ .csync_add_exclude_list ∧ c.fn ≠ .csync_init := by
  simp only [main_out]
  split_ifs
  all_goals try simp only [List.append_assoc]
  all_goals exact ⟨_, rfl, by simp [Call.fn]⟩

/-- C8, as the claim states it, fails at
`--exclude-file first --exclude-file second SRC DST` with every call
succeeding: `csync_add_exclude_list` is called once, on `second`; the file
`first` is not passed to it. -/
theorem exclude_file_overridden :
    main [Item.exclude_file "first", Item.exclude_file "second", Item.positional "src",
      Item.positional "dst"] ⟨0, 0, 0, 0, 0, 0, 0⟩ =
      some ⟨[Call.csync_create (some "src") (some "dst") 0,
        Call.csync_set_module_auth_callback, Call.csync_init 0,
        Call.csync_add_exclude_list "second" 0, Call.csync_update 0, Call.csync_reconcile 0,
        Call.csync_propagate 0, Call.csync_destroy], 0⟩ ∧
    ∀ rc, Call.csync_add_exclude_list "first" rc ∉
      [Call.csync_create (some "src") (some "dst") 0,
        Call.csync_set_module_auth_callback, Call.csync_init 0,
        Call.csync_add_exclude_list "second" 0, Call.csync_update 0, Call.csync_reconcile 0,
        Call.csync_propagate 0, Call.csync_destroy] :=
  ⟨rfl, by simp⟩

/-- C8, amended. The last additional exclude file is added: when
`csync_create` and `csync_init` succeed, the file named by the last
`--exclude-file` option is passed to `csync_add_exclude_list` in the call
directly after `csync_init`, before any `csync_update` call, and that is the
only `csync_add_exclude_list` call of the run; with no `--exclude-file` option
`csync_add_exclude_list` is not called. -/
theorem last_exclude_file_added (argv : List Item) (lib : Lib) (run : Run)
    (h : main argv lib = some run) (hc : 0 ≤ lib.csync_create) (hi : 0 ≤ lib.csync_init) :
    (∀ file, (exclude_files argv).getLast? = some file →
      ∃ source destination post,
        run.trace = [Call.csync_create source destination lib.csync_create,
          Call.csync_set_module_auth_callback, Call.csync_init lib.csync_init,
          Call.csync_add_exclude_list file lib.csync_add_exclude_list] ++ post ∧
        ∀ c ∈ post, c.fn ≠ .csync_add_exclude_list ∧ c.fn ≠ .csync_init) ∧
    (exclude_files argv = [] → ∀ c ∈ run.trace, c.fn ≠ .csync_add_exclude_list) := by
  obtain ⟨a, hp, rfl⟩ := main_spec argv lib run h
  obtain ⟨-, -, he, -⟩ := argp_parse_spec argv a hp
  have hc1 : ¬ lib.csync_create < 0 := not_lt.mpr hc
  have hi1 : ¬ lib.csync_init < 0 := not_lt.mpr hi
  constructor
  · intro file hfile
    rw [hfile] at he
    simp only [main_run, hc1, hi1, if_false, main_exclude, he]
    split_ifs
    · obtain ⟨post, hpost, hfree⟩ := main_out_suffix a lib
        ([Call.csync_create (a.args.getD 0 none) (a.args.getD 1 none) lib.csync_create] ++
          [Call.csync_set_module_auth_callback] ++ [Call.csync_init lib.csync_init] ++
          [Call.csync_add_exclude_list file lib.csync_add_exclude_list]) 1
      exact ⟨_, _, post, by rw [hpost]; rfl, hfree⟩
    · obtain ⟨post, hpost, hfree⟩ := main_update_suffix a lib
        ([Call.csync_create (a.args.getD 0 none) (a.args.getD 1 none) lib.csync_create] ++
          [Call.csync_set_module_auth_callback] ++ [Call.csync_init lib.csync_init] ++
          [Call.csync_add_exclude_list file lib.csync_add_exclude_list])
      exact ⟨_, _, post, by rw [hpost]; rfl, hfree⟩
  · intro hnil c hcm
    rw [hnil] at he
    simp only [List.getLast?_nil] at he
    simp only [main_run, hc1, hi1, if_false, main_exclude, he] at hcm
    obtain ⟨post, hpost, hfree⟩ := main_update_suffix a lib
        ([Call.csync_create (a.args.getD 0 none) (a.args.getD 1 none) lib.csync_create] ++
          [Call.csync_set_module_auth_callback] ++ [Call.csync_init lib.csync_init])
    rw [hpost] at hcm
    simp only [List.mem_append, List.mem_singleton] at hcm
    rcases hcm with ((rfl | rfl) | rfl) | hcm
    · simp [Call.fn]
    · simp [Call.fn]
    · simp [Call.fn]
    · exact (hfree c hcm).1

/-- C8, amended, at `--exclude-file first --exclude-file second SRC DST`. -/
theorem last_exclude_file_added_witness :
    main [Item.exclude_file "first", Item.exclude_file "second", Item.positional "src",
      Item.positional "dst"] ⟨0, 0, 0, 0, 0, 0, 0⟩ =
      some ⟨[Call.csync_create (some "src") (some "dst") 0,
        Call.csync_set_module_auth_callback, Call.csync_init 0,
        Call.csync_add_exclude_list "second" 0, Call.csync_update 0, Call.csync_reconcile 0,
        Call.csync_propagate 0, Call.csync_destroy], 0⟩ ∧
    ∃ source destination post,
      [Call.csync_create (some "src") (some "dst") 0,
        Call.csync_set_module_auth_callback, Call.csync_init 0,
        Call.csync_add_exclude_list "second" 0, Call.csync_update 0, Call.csync_reconcile 0,
        Call.csync_propagate 0, Call.csync_destroy] =
      [Call.csync_create source destination 0, Call.csync_set_module_auth_callback,
        Call.csync_init 0, Call.csync_add_exclude_list "second" 0] ++ post ∧
      ∀ c ∈ post, c.fn ≠ .csync_add_exclude_list ∧ c.fn ≠ .csync_init :=
  ⟨rfl, (last_exclude_file_added [Item.exclude_file "first", Item.exclude_file "second",
    Item.positional "src", Item.positional "dst"] ⟨0, 0, 0, 0, 0, 0, 0⟩
    ⟨[Call.csync_create (some "src") (some "dst") 0,
        Call.csync_set_module_auth_callback, Call.csync_init 0,
        Call.csync_add_exclude_list "second" 0, Call.csync_update 0, Call.csync_reconcile 0,
        Call.csync_propagate 0, Call.csync_destroy], 0⟩ rfl (by decide) (by decide)).1
    "second" rfl⟩

/-! ## The positional arguments -/

theorem main_run_head (a : argument_s) (lib : Lib) :
    (main_run a lib).trace.head? =
      some (Call.csync_create (a.args.getD 0 none) (a.args.getD 1 none) lib.csync_create) := by
  simp only [main_run]
  split_ifs
  all_goals try simp only [main_exclude]
  all_goals try split
  all_goals try split_ifs
  all_goals try simp only [main_update]
  all_goals try split_ifs
  all_goals try simp only [main_reconcile]
  all_goals try split_ifs
  all_goals try simp only [main_propagate]
  all_goals try split_ifs
  all_goals try simp only [main_journal_create]
  all_goals try split_ifs
  all_goals try simp only [main_out]
  all_goals try split_ifs
  all_goals rfl

/-- C10. Exactly two positional arguments, stored in bounds: `parse_opt`
never writes outside the two-element array `args`; on `ARGP_KEY_ARG` with
`arg_num < 2` it stores the argument at `args[arg_num]`, changes no other
field and returns 0; on a third positional argument, and on `ARGP_KEY_END`
with fewer than two, it ends in the usage error; so whenever `main` gets past
the parser there are exactly two positional arguments, they are `args[0]` and
`args[1]`, and the first library call is `csync_create` on them, in this
order. -/
theorem positional_arguments :
    (∀ key arg state, parse_opt key arg state ≠ ParseResult.out_of_bounds) ∧
    (∀ arg state, state.arg_num < 2 →
      parse_opt ARGP_KEY_ARG arg state =
        ParseResult.ret 0 { state with input := { state.input with
          args := state.input.args.set state.arg_num (some arg) } }) ∧
    (∀ arg state, 2 ≤ state.arg_num → parse_opt ARGP_KEY_ARG arg state = ParseResult.usage) ∧
    (∀ arg state, state.arg_num < 2 → parse_opt ARGP_KEY_END arg state = ParseResult.usage) ∧
    (∀ argv lib run, main argv lib = some run →
      ∃ source destination a, positionals argv = [source, destination] ∧
        argp_parse argv default_arguments = some a ∧
        a.args = [some source, some destination] ∧
        run.trace.head? =
          some (Call.csync_create (some source) (some destination) lib.csync_create)) := by
  refine ⟨?_, ?_, ?_, ?_, ?_⟩
  · intro key arg state
    unfold parse_opt
    simp only [store_arg]
    split_ifs <;> simp
    omega
  · intro arg state h
    have h2 : ¬ 2 ≤ state.arg_num := by omega
    simp [parse_opt, store_arg, ARGP_KEY_ARG, KEY_j, KEY_u, KEY_r, KEY_EXCLUDE_FILE,
      KEY_REMOVE_JOURNAL, h, h2]
  · intro arg state h
    simp [parse_opt, ARGP_KEY_ARG, KEY_j, KEY_u, KEY_r, KEY_EXCLUDE_FILE,
      KEY_REMOVE_JOURNAL, h]
  · intro arg state h
    simp [parse_opt, ARGP_KEY_ARG, ARGP_KEY_END, KEY_j, KEY_u, KEY_r, KEY_EXCLUDE_FILE,
      KEY_REMOVE_JOURNAL, h]
  · intro argv lib run h
    obtain ⟨a, hp, rfl⟩ := main_spec argv lib run h
    obtain ⟨-, -, -, s, d, hpos, hargs⟩ := argp_parse_spec argv a hp
    refine ⟨s, d, a, hpos, hp, hargs, ?_⟩
    rw [main_run_head, hargs]
    rfl

/-- C10, at `SRC -u DST`: the two positional arguments reach `csync_create`
in their order. -/
theorem positional_arguments_witness :
    main [Item.positional "src", Item.update, Item.positional "dst"] ⟨0, 0, 0, 0, 0, 0, 0⟩ =
      some ⟨[Call.csync_create (some "src") (some "dst") 0,
        Call.csync_set_module_auth_callback, Call.csync_init 0, Call.csync_update 0,
        Call.csync_destroy], 0⟩ ∧
    ∃ source destination a,
      positionals [Item.positional "src", Item.update, Item.positional "dst"] =
        [source, destination] ∧
      argp_parse [Item.positional "src", Item.update, Item.positional "dst"]
        default_arguments = some a ∧
      a.args = [some source, some destination] ∧
      List.head? [Call.csync_create (some "src") (some "dst") 0,
        Call.csync_set_module_auth_callback, Call.csync_init 0, Call.csync_update 0,
        Call.csync_destroy] =
        some (Call.csync_create (some source) (some destination) 0) :=
  ⟨rfl, positional_arguments.2.2.2.2
    [Item.positional "src", Item.update, Item.positional "dst"] ⟨0, 0, 0, 0, 0, 0, 0⟩
    ⟨[Call.csync_create (some "src") (some "dst") 0,
        Call.csync_set_module_auth_callback, Call.csync_init 0, Call.csync_update 0,
        Call.csync_destroy], 0⟩ rfl⟩

end CsyncClient
